import Mathlib

set_option linter.unusedVariables false

/-!
Shallow embedding of the cv-agent document-processing pipeline
(`src/cv_agent`), used to verify the natural-language specification
against the code.

Modelling conventions:
* Python `str` is modelled by `String`; all string manipulation is
  implemented structurally on `List Char` so that concrete runs reduce
  in the kernel.  Python's `str.strip`/`str.split`/`str.lower`/`in`
  (substring) are re-implemented below with their Python semantics.
* Python `float` is modelled by `ℚ` (exact arithmetic); `round(x, 3)`
  is modelled by decimal rounding half-to-even (`round3`).
* Python `dict` (insertion-ordered) is modelled by an association list
  `List (String × α)`; assignment keeps the position of an existing key
  and appends new keys (`dictInsert`).
* Calls into external libraries (the `re` regex module's counting
  helpers, the LLM client, file readers) are modelled as explicit
  oracle parameters; everything else is translated from the source.
-/

namespace CVAgent

/-! ## Python string primitives on `List Char` -/

/-- Python whitespace test for the ASCII range (`str.strip` / `str.split`). -/
def isWs (c : Char) : Bool := c = ' ' || c = '\t' || c = '\n' || c = '\r' || c = '\x0b' || c = '\x0c'

/-- `str.strip()`: drop whitespace from both ends. -/
def pyStrip (cs : List Char) : List Char :=
  ((cs.dropWhile isWs).reverse.dropWhile isWs).reverse

/-- `str.split(sep)` for a one-character separator (used as `split('\n')`,
`split(',')`): splits on every occurrence, keeping empty parts. -/
def splitOnChar (sep : Char) : List Char → List (List Char)
  | [] => [[]]
  | c :: cs =>
    let r := splitOnChar sep cs
    if c = sep then [] :: r
    else match r with
      | [] => [[c]]
      | h :: t => (c :: h) :: t

/-- `str.split()` with no argument: split on whitespace runs, no empty parts. -/
def pySplitWs : List Char → List (List Char)
  | [] => []
  | c :: cs =>
    if isWs c then pySplitWs cs
    else match pySplitWs cs with
      | [] => [[c]]
      | h :: t =>
        match cs with
        | [] => [[c]]
        | c' :: _ => if isWs c' then [c] :: h :: t else (c :: h) :: t

/-- `str.lower()` (ASCII). -/
def lowerChars (cs : List Char) : List Char := cs.map Char.toLower

/-- `str.upper()` (ASCII). -/
def upperChars (cs : List Char) : List Char := cs.map Char.toUpper

/-- Python substring test `needle in hay`. -/
def containsSub (needle : List Char) : List Char → Bool
  | [] => needle.isEmpty
  | c :: cs => needle.isPrefixOf (c :: cs) || containsSub needle cs

/-- Python `str.replace(old, new)`: replace every non-overlapping
occurrence left to right; an empty `old` inserts `new` at every position. -/
def replaceAll (old new : List Char) (cs : List Char) : List Char :=
  if h : old.isEmpty then
    match cs with
    | [] => new
    | c :: rest => new ++ c :: replaceAll old new rest
  else
    match cs with
    | [] => []
    | c :: rest =>
      if old.isPrefixOf (c :: rest) then
        new ++ replaceAll old new ((c :: rest).drop old.length)
      else
        c :: replaceAll old new rest
termination_by cs.length
decreasing_by
  · simp
  · have hlen : 0 < old.length := by
      cases old with
      | nil => simp [List.isEmpty] at h
      | cons a l => simp
    simp only [List.length_drop, List.length_cons]
    omega
  · simp

/-- String-level wrappers. -/
def strip (s : String) : String := ⟨pyStrip s.data⟩

def lower (s : String) : String := ⟨lowerChars s.data⟩

def upper (s : String) : String := ⟨upperChars s.data⟩

def splitLines (s : String) : List String := (splitOnChar '\n' s.data).map String.mk

/-- `sub in s` on strings. -/
def strIn (sub s : String) : Bool := containsSub sub.data s.data

/-- `"sep".join(parts)` / `'\n'.join(...)`. -/
def joinWith (sep : String) (parts : List String) : String :=
  String.mk (List.intercalate sep.data (parts.map String.data))

/-- `s.startswith(p)`. -/
def pyStartsWith (s p : String) : Bool := p.data.isPrefixOf s.data

/-- Insertion-ordered `dict` assignment `d[k] = v`. -/
def dictInsert (k : String) (v : α) : List (String × α) → List (String × α)
  | [] => [(k, v)]
  | (k', v') :: t => if k' = k then (k, v) :: t else (k', v') :: dictInsert k v t

/-- `k in d` / `d.get(k)` for the association-list dict. -/
def dictGet (k : String) : List (String × α) → Option α
  | [] => none
  | (k', v) :: t => if k' = k then some v else dictGet k t

/-! ## Regex pattern matching for the section-header tables

Every pattern in `DocumentParser.extract_sections` and
`DoclingParser.extract_sections` is a case-insensitive alternation of
literal words glued by `\s+`.  An alternative is modelled as the list of
its literal words; `matchWords` checks it at the head of a character
list (`\s+` = one or more whitespace characters), `searchWords` checks
it anywhere (`re.search`). -/

/-- Match `w₁\s+w₂\s+…\s+wₙ` at the head of `cs` (all inputs lowercase). -/
def matchWords : List (List Char) → List Char → Bool
  | [], _ => true
  | [w], cs => w.isPrefixOf cs
  | w :: w' :: ws, cs =>
    w.isPrefixOf cs &&
      (let rest := cs.drop w.length
       !(rest.takeWhile isWs).isEmpty && matchWords (w' :: ws) (rest.dropWhile isWs))

/-- `re.search` of one alternative: match at any position. -/
def searchWords (alt : List (List Char)) : List Char → Bool
  | [] => matchWords alt []
  | c :: cs => matchWords alt (c :: cs) || searchWords alt cs

/-- `re.search((?i)(alt|alt|…), line)`: some alternative occurs somewhere
in the lowercased line.  `alts` holds lowercase alternatives, each an
ordered list of literal words. -/
def reSearchAlts (alts : List (List String)) (line : String) : Bool :=
  alts.any fun alt => searchWords (alt.map String.data) (lowerChars line.data)

/-- `re.match((?i)^#+\s*(alt|alt|…), line)`: one or more `#`, optional
whitespace, then some alternative as a prefix.  Since `(?i)` only
affects letters, the `#`/whitespace stripping happens before lowering. -/
def reMatchHashAlts (alts : List (List String)) (line : String) : Bool :=
  let cs := line.data
  !(cs.takeWhile (· = '#')).isEmpty &&
    alts.any fun alt =>
      matchWords (alt.map String.data) (lowerChars ((cs.dropWhile (· = '#')).dropWhile isWs))

/-- The ordered pattern table of `DocumentParser.extract_sections`
(`src/cv_agent/tools/parsers.py`). -/
def section_patterns : List (String × List (List String)) :=
  [("contact", [["contact"], ["personal", "info"], ["personal", "details"]]),
   ("summary", [["summary"], ["profile"], ["objective"], ["about"]]),
   ("experience", [["experience"], ["employment"], ["work", "history"], ["professional", "experience"]]),
   ("education", [["education"], ["academic"], ["qualifications"]]),
   ("skills", [["skills"], ["technical", "skills"], ["competencies"]]),
   ("projects", [["projects"], ["portfolio"]]),
   ("certifications", [["certifications"], ["certificates"], ["licenses"]]),
   ("achievements", [["achievements"], ["accomplishments"], ["awards"]]),
   ("languages", [["languages"], ["linguistic"]]),
   ("references", [["references"], ["referees"]])]

/-- The ordered markdown pattern table of `DoclingParser.extract_sections`. -/
def docling_section_patterns : List (String × List (List String)) :=
  [("contact", [["contact"], ["personal", "info"], ["personal", "details"]]),
   ("summary", [["summary"], ["profile"], ["objective"], ["about"], ["professional", "summary"]]),
   ("experience", [["experience"], ["employment"], ["work", "history"], ["professional", "experience"]]),
   ("education", [["education"], ["academic"], ["qualifications"], ["academic", "background"]]),
   ("skills", [["skills"], ["technical", "skills"], ["competencies"], ["core", "competencies"]]),
   ("projects", [["projects"], ["portfolio"], ["key", "projects"]]),
   ("certifications", [["certifications"], ["certificates"], ["licenses"]]),
   ("achievements", [["achievements"], ["accomplishments"], ["awards"]]),
   ("languages", [["languages"], ["linguistic"], ["language", "skills"]]),
   ("references", [["references"], ["referees"]])]

/-- First pattern of the base table matching the (stripped) line, if any. -/
def sectionFound (line : String) : Option String :=
  (section_patterns.find? fun p => reSearchAlts p.2 line).map Prod.fst

/-- First markdown pattern matching the (stripped) line, if any. -/
def doclingSectionFound (line : String) : Option String :=
  (docling_section_patterns.find? fun p => reMatchHashAlts p.2 line).map Prod.fst

/-! ## Data model (`src/cv_agent/models/state.py`) -/

/-- `CVSection` (pydantic model). -/
structure CVSection where
  name : String
  content : String
  position : Nat
  confidence : ℚ
deriving DecidableEq, Repr

/-- `AnalysisScore` (pydantic model). -/
structure AnalysisScore where
  overall_score : ℚ
  section_scores : List (String × ℚ)
  ats_compatibility : ℚ
  keyword_density : ℚ
  formatting_score : ℚ
  content_quality : ℚ
deriving DecidableEq, Repr

/-- `Improvement` (pydantic model). -/
structure Improvement where
  «section» : String
  type : String
  original_text : String
  improved_text : String
  reasoning : String
  priority : String
  confidence : ℚ
deriving DecidableEq, Repr

/-! ## Section extraction (`src/cv_agent/tools/parsers.py`) -/

/-- Loop state of the single forward pass in both extractors. -/
structure ExtractState where
  sections : List (String × CVSection)
  current : String
  buf : List String
  pos : Nat
deriving DecidableEq, Repr

def initExtractState : ExtractState := ⟨[], "other", [], 0⟩

/-- Flush the buffer of `DocumentParser.extract_sections`
(confidence fixed at `0.8`, header line included in the buffer). -/
def baseFlush (st : ExtractState) : ExtractState :=
  if st.buf.isEmpty then st
  else
    { st with
      sections := dictInsert st.current
        ⟨st.current, joinWith "\n" st.buf, st.pos, 8/10⟩ st.sections
      pos := st.pos + 1 }

/-- One line of `DocumentParser.extract_sections`. -/
def baseStep (st : ExtractState) (rawLine : String) : ExtractState :=
  let line := strip rawLine
  if line = "" then st
  else
    match sectionFound line with
    | some name => { baseFlush st with current := name, buf := [line] }
    | none => { st with buf := st.buf ++ [line] }

/-- `DocumentParser.extract_sections` (regex mode). -/
def extract_sections (text : String) : List (String × CVSection) :=
  (baseFlush ((splitLines text).foldl baseStep initExtractState)).sections

/-- Flush the buffer of `DoclingParser.extract_sections` (confidence
`min(0.9 + len(content)/1000, 1.0)`, header line not in the buffer). -/
def doclingFlush (st : ExtractState) : ExtractState :=
  if st.buf.isEmpty then st
  else
    let content := joinWith "\n" st.buf
    { st with
      sections := dictInsert st.current
        ⟨st.current, content, st.pos,
          min (9/10 + (content.data.length : ℚ) / 1000) 1⟩ st.sections
      pos := st.pos + 1 }

/-- One line of `DoclingParser.extract_sections` (markdown fallback
mode): heading lines matching a pattern start sections; other lines are
kept unless they start with `###`. -/
def doclingStep (st : ExtractState) (rawLine : String) : ExtractState :=
  let line := strip rawLine
  if line = "" then st
  else
    match doclingSectionFound line with
    | some name => { doclingFlush st with current := name, buf := [] }
    | none =>
      if !(pyStartsWith line "###") then { st with buf := st.buf ++ [line] }
      else st

/-- `DoclingParser.extract_sections` (traditional markdown fallback mode). -/
def docling_extract_sections (text : String) : List (String × CVSection) :=
  (doclingFlush ((splitLines text).foldl doclingStep initExtractState)).sections

/-! ## Quality and ATS analysis (`src/cv_agent/tools/analyzers.py`)

The analyzer calls the external `re` module for pattern counting; those
calls are modelled as an oracle record whose fields stand for the exact
regexes named in their doc strings.  The substring tests (`keyword in
content`) and splits are implemented concretely. -/

/-- Oracle for the `re`-module calls of `CVAnalyzer` and
`CVAnalyzer.identify_gaps`. -/
structure ReOracle where
  /-- `len(re.findall(r'\b\d+%|\b\d+\s*(million|thousand|k|m)\b|\$\d+|\b\d+\+\b', content, re.IGNORECASE))`. -/
  quantCount : String → Nat
  /-- `re.search(ats_patterns['email'], raw_text, re.IGNORECASE) is not None`. -/
  emailFound : String → Bool
  /-- `re.search(ats_patterns['phone'], raw_text) is not None`. -/
  phoneFound : String → Bool
  /-- `len(re.findall(ats_patterns['dates'], raw_text, re.IGNORECASE))`. -/
  dateCount : String → Nat
  /-- `len(re.findall(ats_patterns['bullet_points'], raw_text, re.MULTILINE))`. -/
  bulletCount : String → Nat
  /-- `re.search(rf'\b{header}\b', raw_text, re.IGNORECASE) is not None`. -/
  wordFound : String → String → Bool
  /-- `re.search(r'\d+\s*(year|month)', exp_content) is not None`. -/
  durationFound : String → Bool
  /-- `re.search(r'[•·▪▫◦‣⁃]|\*\s|\-\s', content) is not None`. -/
  expBulletFound : String → Bool

/-- Fixed action-verb list of `CVAnalyzer.analyze_content_quality`. -/
def action_verbs : List String :=
  ["achieved", "developed", "managed", "led", "created", "implemented",
   "improved", "increased", "reduced", "optimized", "delivered",
   "collaborated", "designed", "built", "analyzed", "executed"]

/-- The score computed for one section by
`CVAnalyzer.analyze_content_quality`. -/
def sectionContentScore (o : ReOracle) (section_name : String) (sec : CVSection) : ℚ :=
  let content := lower sec.content
  let word_count : ℚ := ((pySplitWs content.data).length : ℚ)
  let lengthScore : ℚ :=
    if section_name = "summary" then min (word_count / 50) 1 * (3/10)
    else if section_name = "experience" then min (word_count / 200) 1 * (3/10)
    else min (word_count / 30) 1 * (3/10)
  let action_verb_count : ℚ :=
    ((action_verbs.filter fun verb => strIn verb content).length : ℚ)
  let verbScore : ℚ := min (action_verb_count / 5) 1 * (3/10)
  let quantified_count : ℚ := (o.quantCount content : ℚ)
  let quantScore : ℚ := min (quantified_count / 3) 1 * (4/10)
  min (lengthScore + verbScore + quantScore) 1

/-- One iteration of the `analyze_content_quality` loop. -/
def contentStep (o : ReOracle) (scores : List (String × ℚ)) (entry : String × CVSection) :
    List (String × ℚ) :=
  dictInsert entry.1 (sectionContentScore o entry.1 entry.2) scores

/-- `CVAnalyzer.analyze_content_quality`: per-section content score. -/
def analyze_content_quality (o : ReOracle) (sections : List (String × CVSection)) :
    List (String × ℚ) :=
  sections.foldl (contentStep o) []

/-- Fixed header list of `CVAnalyzer.check_ats_compatibility`. -/
def ats_section_headers : List String :=
  ["experience", "education", "skills", "summary", "contact",
   "projects", "certifications", "achievements"]

/-- `CVAnalyzer.check_ats_compatibility`. -/
def check_ats_compatibility (o : ReOracle) (raw_text : String) : ℚ :=
  let emailScore : ℚ := if o.emailFound raw_text then 2/10 else 0
  let phoneScore : ℚ := if o.phoneFound raw_text then 2/10 else 0
  let dateScore : ℚ := min ((o.dateCount raw_text : ℚ) / 5) 1 * (2/10)
  let bulletScore : ℚ := min ((o.bulletCount raw_text : ℚ) / 10) 1 * (2/10)
  let header_count : ℚ :=
    ((ats_section_headers.filter fun h => o.wordFound h raw_text).length : ℚ)
  let headerScore : ℚ := min (header_count / 5) 1 * (2/10)
  min (emailScore + phoneScore + dateScore + bulletScore + headerScore) 1

/-- The technology keyword list of `CVAnalyzer.__init__`. -/
def technology_keywords : List String :=
  ["python", "java", "javascript", "react", "node.js", "aws", "docker",
   "kubernetes", "sql", "mongodb", "api", "microservices", "agile",
   "scrum", "git", "ci/cd", "devops", "machine learning", "ai"]

/-- Fixed per-industry keyword table of `CVAnalyzer.__init__`. -/
def industry_keywords : List (String × List String) :=
  [("technology", technology_keywords),
   ("marketing",
    ["seo", "sem", "google analytics", "social media", "content marketing",
     "campaign management", "lead generation", "conversion optimization",
     "brand management", "market research", "digital marketing"]),
   ("finance",
    ["financial analysis", "budgeting", "forecasting", "excel", "financial modeling",
     "risk management", "compliance", "audit", "tax", "investment analysis"])]

/-- `CVAnalyzer.calculate_keyword_density`.  `target_industry = none`
models Python `None`; the empty string is likewise falsy. -/
def calculate_keyword_density (content : String) (target_industry : Option String) : ℚ :=
  match target_industry with
  | none => 5/10
  | some t =>
    if t = "" then 5/10
    else
      match dictGet (lower t) industry_keywords with
      | none => 5/10
      | some industry_words =>
        let content_lower := lower content
        let found_keywords : ℚ :=
          ((industry_words.filter fun keyword => strIn keyword content_lower).length : ℚ)
        min (found_keywords / (industry_words.length : ℚ)) 1

/-- Fixed professional-tone indicators of `CVAnalyzer.analyze_formatting`. -/
def professional_indicators : List String :=
  ["experience", "skills", "education", "professional", "career"]

/-- `CVAnalyzer.analyze_formatting`. -/
def analyze_formatting (raw_text : String) : ℚ :=
  let lines := splitLines raw_text
  let non_empty_lines := (lines.map strip).filter (· ≠ "")
  let consistencyScore : ℚ := if non_empty_lines.length > 10 then 3/10 else 0
  let whitespaceScore : ℚ :=
    if (lines.length : ℚ) > (non_empty_lines.length : ℚ) * (12/10) then 2/10 else 0
  let word_count := (pySplitWs raw_text.data).length
  let lengthScore : ℚ :=
    if 300 ≤ word_count ∧ word_count ≤ 800 then 3/10
    else if word_count < 300 then 1/10 else 0
  let professional_count : ℚ :=
    ((professional_indicators.filter fun ind => strIn ind (lower raw_text)).length : ℚ)
  let toneScore : ℚ := min (professional_count / 3) 1 * (2/10)
  min (consistencyScore + whitespaceScore + lengthScore + toneScore) 1

/-- Round a rational to the nearest integer, ties to even. -/
def roundHalfEven (x : ℚ) : ℤ :=
  if x - ⌊x⌋ < 1/2 then ⌊x⌋
  else if 1/2 < x - ⌊x⌋ then ⌊x⌋ + 1
  else if ⌊x⌋ % 2 = 0 then ⌊x⌋ else ⌊x⌋ + 1

/-- Python `round(q, 3)`: decimal rounding to 3 places, ties to even. -/
def round3 (q : ℚ) : ℚ :=
  (roundHalfEven (q * 1000) : ℚ) / 1000

/-- `CVAnalyzer.generate_analysis_score`. -/
def generate_analysis_score (o : ReOracle) (sections : List (String × CVSection))
    (raw_text : String) (target_industry : Option String) : AnalysisScore :=
  let section_scores := analyze_content_quality o sections
  let ats_score := check_ats_compatibility o raw_text
  let keyword_score := calculate_keyword_density raw_text target_industry
  let formatting_score := analyze_formatting raw_text
  let avg_section_score : ℚ :=
    if section_scores.isEmpty then 0
    else (section_scores.map Prod.snd).sum / (section_scores.length : ℚ)
  let overall_score :=
    avg_section_score * (4/10) + ats_score * (25/100) +
      keyword_score * (2/10) + formatting_score * (15/100)
  { overall_score := round3 overall_score
    section_scores := section_scores
    ats_compatibility := round3 ats_score
    keyword_density := round3 keyword_score
    formatting_score := round3 formatting_score
    content_quality := round3 avg_section_score }

/-- `CVAnalyzer.identify_gaps`. -/
def identify_gaps (o : ReOracle) (sections : List (String × CVSection)) : List String :=
  let essential := ["experience", "skills", "education"]
  let recommended := ["summary", "contact"]
  let essentialGaps :=
    essential.foldl
      (fun gaps s =>
        match dictGet s sections with
        | none => gaps ++ ["Missing essential section: " ++ s]
        | some sec =>
          if (pySplitWs sec.content.data).length < 10 then
            gaps ++ ["Insufficient content in " ++ s ++ " section"]
          else gaps)
      []
  let recommendedGaps :=
    recommended.foldl
      (fun gaps s =>
        match dictGet s sections with
        | none => gaps ++ ["Consider adding " ++ s ++ " section"]
        | some _ => gaps)
      essentialGaps
  let expGaps :=
    match dictGet "experience" sections with
    | none => recommendedGaps
    | some sec =>
      let g1 :=
        if !o.durationFound (lower sec.content) then
          recommendedGaps ++ ["Experience section lacks duration information"]
        else recommendedGaps
      if !o.expBulletFound sec.content then
        g1 ++ ["Experience section would benefit from bullet points"]
      else g1
  match dictGet "skills" sections with
  | none => expGaps
  | some sec =>
    if (splitOnChar ',' sec.content.data).length < 5 then
      expGaps ++ ["Skills section appears limited - consider adding more relevant skills"]
    else expGaps

/-! ## Pipeline state (`src/cv_agent/models/state.py`, `CVState`)

`processing_time` (wall-clock seconds) and `model_used` carry no logic
and are omitted.  `final_quality_score` and `processing_complete` are
the extra keys written by `quality_check_node`. -/

structure CVState where
  original_cv : String
  file_format : String
  target_role : Option String
  target_industry : Option String
  parsed_sections : List (String × CVSection)
  raw_text : String
  analysis_scores : Option AnalysisScore
  identified_gaps : List String
  suggested_improvements : List Improvement
  applied_improvements : List Improvement
  enhanced_cv : Option String
  enhancement_summary : Option String
  processing_errors : List String
  final_quality_score : Option ℚ
  processing_complete : Bool
deriving DecidableEq, Repr

/-- The initial record built by `CVImprovementAgent.process_cv`. -/
def initial_state (cv_input : String) (target_role target_industry : Option String) : CVState :=
  { original_cv := cv_input
    file_format := "unknown"
    target_role := target_role
    target_industry := target_industry
    parsed_sections := []
    raw_text := ""
    analysis_scores := none
    identified_gaps := []
    suggested_improvements := []
    applied_improvements := []
    enhanced_cv := none
    enhancement_summary := none
    processing_errors := []
    final_quality_score := none
    processing_complete := false }

/-! ## Load & extract stage (`src/cv_agent/nodes/parsing.py`)

File reading, the Docling converter and the LLM section extractor are
external; the outcome of each external attempt is an oracle parameter:
* `fileParse` — outcome of `parser.parse(file_path)` +
  `parser.extract_sections(raw_text)` on the file-path branch (the
  whole `try`-body up to the state construction);
* `fallbackParse` — outcome of the traditional-parser retry inside the
  `except` handler;
* `llmSections` — outcome of the LLM call inside
  `extract_sections_with_llm` on the raw-text branch; on failure that
  method itself falls back to the regex `extract_sections`. -/

/-- `pathlib.Path(p).name` for ordinary POSIX paths: the last nonempty
`/`-separated component. -/
def pathName (p : String) : String :=
  ⟨((splitOnChar '/' p.data).filter (fun c => !c.isEmpty)).getLastD []⟩

/-- `pathlib.Path(p).suffix`: the extension of the final component,
`""` when the name has no dot, ends with its only dot, or starts with
its only dot. -/
def pathSuffix (p : String) : String :=
  let name := (pathName p).data
  let post := (name.reverse.takeWhile (· ≠ '.')).reverse
  if post.length = name.length then ""
  else if post.isEmpty then ""
  else if name.length = post.length + 1 then ""
  else ⟨'.' :: post⟩

/-- The `except`-handler of `parse_cv_node`: retry with the traditional
parser when the message mentions docling and the input is an absolute
path, otherwise return the empty record with the single diagnostic. -/
def parseErrorResult (fallbackParse : Except String (String × List (String × CVSection)))
    (e : String) (s : CVState) : CVState :=
  let error_message := "Error in parse_cv_node: " ++ e
  if strIn "docling" (lower e) && pyStartsWith s.original_cv "/" then
    match fallbackParse with
    | .ok (raw_text, parsed_sections) =>
      { s with raw_text := raw_text
               file_format := ⟨(lower (pathSuffix s.original_cv)).data.drop 1⟩
               parsed_sections := parsed_sections
               processing_errors := ["Docling failed, used fallback parser: " ++ e] }
    | .error fallback_error =>
      { s with raw_text := ""
               file_format := "unknown"
               parsed_sections := []
               processing_errors :=
                 ["Both Docling and fallback parsing failed: " ++ e ++ ", " ++ fallback_error] }
  else
    { s with raw_text := ""
             file_format := "unknown"
             parsed_sections := []
             processing_errors := [error_message] }

/-- `parse_cv_node`. -/
def parse_cv_node (fileParse fallbackParse : Except String (String × List (String × CVSection)))
    (llmSections : Except String (List (String × CVSection))) (s : CVState) : CVState :=
  if pyStartsWith s.original_cv "/" || pyStartsWith s.original_cv "./" then
    match fileParse with
    | .ok (raw_text, parsed_sections) =>
      let suffix := lower (pathSuffix s.original_cv)
      let file_format := if suffix = "" then "unknown" else (⟨suffix.data.drop 1⟩ : String)
      { s with raw_text := raw_text
               file_format := file_format
               parsed_sections := parsed_sections
               processing_errors := [] }
    | .error e => parseErrorResult fallbackParse e s
  else
    let raw_text := s.original_cv
    let parsed_sections :=
      match llmSections with
      | .ok m => m
      | .error _ => extract_sections raw_text
    { s with raw_text := raw_text
             file_format := "txt"
             parsed_sections := parsed_sections
             processing_errors := [] }

/-! ## Analysis stage (`src/cv_agent/nodes/analysis.py`)

Each node's `try`/`except` is modelled by a `failMsg` oracle: `some e`
means the body raised the exception rendered as `e`. -/

/-- `analyze_quality_node`. -/
def analyze_quality_node (failMsg : Option String) (o : ReOracle) (s : CVState) : CVState :=
  match failMsg with
  | some e =>
    { s with analysis_scores := none
             identified_gaps := []
             processing_errors := s.processing_errors ++ ["Error in analyze_quality_node: " ++ e] }
  | none =>
    { s with
      analysis_scores :=
        some (generate_analysis_score o s.parsed_sections s.raw_text s.target_industry)
      identified_gaps := identify_gaps o s.parsed_sections }

/-- Fixed role→keywords table of `match_requirements_node`. -/
def role_keywords : List (String × List String) :=
  [("software engineer",
    ["programming", "coding", "development", "software", "algorithms",
     "data structures", "debugging", "testing", "version control"]),
   ("data scientist",
    ["machine learning", "statistics", "python", "r", "sql", "data analysis",
     "visualization", "modeling", "pandas", "numpy", "scikit-learn"]),
   ("product manager",
    ["product strategy", "roadmap", "stakeholder management", "agile",
     "user experience", "market research", "analytics", "prioritization"]),
   ("marketing manager",
    ["campaign management", "digital marketing", "seo", "sem", "analytics",
     "brand management", "content strategy", "lead generation"])]

/-- `match_requirements_node`. -/
def match_requirements_node (failMsg : Option String) (s : CVState) : CVState :=
  match failMsg with
  | some e =>
    { s with processing_errors := s.processing_errors ++ ["Error in match_requirements_node: " ++ e] }
  | none =>
    let raw_text := lower s.raw_text
    let gaps := s.identified_gaps
    let gaps' :=
      match s.target_role with
      | none => gaps
      | some target_role =>
        if target_role = "" then gaps
        else
          match dictGet (lower target_role) role_keywords with
          | none => gaps
          | some role_words =>
            let missing_keywords := role_words.filter fun keyword => !(strIn keyword raw_text)
            if missing_keywords.isEmpty then gaps
            else
              gaps ++ ["Consider adding keywords relevant to " ++ target_role ++ ": " ++
                        joinWith ", " (missing_keywords.take 5)]
    { s with identified_gaps := gaps' }

/-! ## Improvement stages (`src/cv_agent/nodes/improvement.py`)

The LLM client is the `invoke` oracle; only whether it raises is
observable, since `generate_content_improvements` discards the
response text. -/

/-- `ImprovementGenerator.generate_content_improvements`. -/
def generate_content_improvements (invoke : Except String Unit) (section_name content : String)
    (gaps : List String) (target_role : Option String) : List Improvement :=
  match invoke with
  | .ok _ =>
    (if section_name = "experience" then
      [{ «section» := section_name
         type := "content"
         original_text :=
           if content.data.length > 100 then (⟨content.data.take 100⟩ : String) ++ "..."
           else content
         improved_text := "Enhanced with quantified achievements and stronger action verbs"
         reasoning := "Added specific metrics and impact measurements to demonstrate value"
         priority := "high"
         confidence := 85/100 }]
     else []) ++
    (if section_name = "skills" then
      [{ «section» := section_name
         type := "keyword"
         original_text := content
         improved_text := "Added industry-relevant technical skills and certifications"
         reasoning := "Includes keywords commonly searched by ATS systems"
         priority := "medium"
         confidence := 80/100 }]
     else [])
  | .error e =>
    [{ «section» := section_name
       type := "content"
       original_text := content
       improved_text := "Content needs enhancement for better impact"
       reasoning := "Error generating specific improvements: " ++ e
       priority := "medium"
       confidence := 50/100 }]

/-- `ImprovementGenerator.generate_formatting_improvements`. -/
def generate_formatting_improvements (raw_text : String) : List Improvement :=
  let bulletImps :=
    if !((['•', '▪', '*', '-'] : List Char).any fun c => containsSub [c] raw_text.data) then
      [{ «section» := "format"
         type := "format"
         original_text := "Plain text format"
         improved_text := "Use bullet points for better readability"
         reasoning := "Bullet points improve ATS compatibility and readability"
         priority := "medium"
         confidence := 90/100 }]
    else []
  let common_headers := ["experience", "education", "skills", "summary"]
  let missing_headers := common_headers.filter fun hd => !(strIn (lower hd) (lower raw_text))
  if !missing_headers.isEmpty then
    bulletImps ++
      [{ «section» := "structure"
         type := "structure"
         original_text := "Current section organization"
         improved_text := "Add clear section headers: " ++ joinWith ", " missing_headers
         reasoning := "Clear section headers improve document structure and ATS parsing"
         priority := "high"
         confidence := 95/100 }]
  else bulletImps

/-- `generate_improvements_node`. -/
def generate_improvements_node (failMsg : Option String)
    (invoke : String → String → Except String Unit) (s : CVState) : CVState :=
  match failMsg with
  | some e =>
    { s with suggested_improvements := []
             processing_errors :=
               s.processing_errors ++ ["Error in generate_improvements_node: " ++ e] }
  | none =>
    let contentImps :=
      s.parsed_sections.foldl
        (fun acc (section_name, section_data) =>
          if section_data.content ≠ "" then
            let section_gaps := s.identified_gaps.filter fun gap =>
              strIn (lower section_name) (lower gap)
            acc ++ generate_content_improvements (invoke section_name section_data.content)
                     section_name section_data.content section_gaps s.target_role
          else acc)
        []
    let all_improvements := contentImps ++ generate_formatting_improvements s.raw_text
    { s with suggested_improvements := all_improvements }

/-- One iteration of the application loop in `apply_improvements_node`:
the improvement is appended to `applied_improvements` whenever it meets
the priority/confidence threshold; the section lookup and substring
test only guard the text replacement. -/
def applyStep (acc : List Improvement × List (String × CVSection)) (improvement : Improvement) :
    List Improvement × List (String × CVSection) :=
  let (applied, secs) := acc
  if improvement.priority = "high" ∧ improvement.confidence > 7/10 then
    let secs' :=
      match dictGet improvement.«section» secs with
      | some section_data =>
        if strIn improvement.original_text section_data.content then
          dictInsert improvement.«section»
            { section_data with
              content := ⟨replaceAll improvement.original_text.data
                            improvement.improved_text.data section_data.content.data⟩ } secs
        else secs
      | none => secs
    (applied ++ [improvement], secs')
  else (applied, secs)

/-- `apply_improvements_node`. -/
def apply_improvements_node (failMsg : Option String) (s : CVState) : CVState :=
  match failMsg with
  | some e =>
    { s with applied_improvements := []
             enhanced_cv := some s.raw_text
             enhancement_summary := some ("Error applying improvements: " ++ e)
             processing_errors :=
               s.processing_errors ++ ["Error in apply_improvements_node: " ++ e] }
  | none =>
    let (applied_improvements, enhanced_sections) :=
      s.suggested_improvements.foldl applyStep ([], s.parsed_sections)
    let enhanced_cv_parts := enhanced_sections.map fun (section_name, section_data) =>
      upper section_name ++ "\n" ++ section_data.content ++ "\n"
    let enhanced_cv := joinWith "\n" enhanced_cv_parts
    let summary_parts := applied_improvements.map fun imp => "- " ++ imp.reasoning
    let enhancement_summary :=
      if !summary_parts.isEmpty then "Applied improvements:\n" ++ joinWith "\n" summary_parts
      else "No high-priority improvements applied"
    { s with applied_improvements := applied_improvements
             enhanced_cv := some enhanced_cv
             enhancement_summary := some enhancement_summary }

/-! ## Workflow branching and terminal stage (`src/cv_agent/workflow.py`) -/

/-- `should_apply_improvements`: conditional edge after improvement
generation. -/
def should_apply_improvements (s : CVState) : String :=
  let high_priority_improvements :=
    s.suggested_improvements.filter fun imp =>
      decide (imp.priority = "high") && decide (imp.confidence > 7/10)
  if !high_priority_improvements.isEmpty then "apply_improvements" else "quality_check"

/-- Python truthiness of the optional `enhanced_cv` string. -/
def optStrTruthy : Option String → Bool
  | none => false
  | some t => t ≠ ""

/-- `quality_check_node`: terminal stage. -/
def quality_check_node (s : CVState) : CVState :=
  let quality_score : ℚ :=
    if optStrTruthy s.enhanced_cv ∧ ¬s.applied_improvements.isEmpty then 85/100 else 70/100
  { s with final_quality_score := some quality_score
           processing_complete := true }

/-! # Theorems -/

/-! ## Helper lemmas about the extraction pass -/

/-- A blank line is skipped by the regex extractor's pass. -/
lemma baseStep_blank (st : ExtractState) (l : String) (hb : strip l = "") :
    baseStep st l = st := by
  simp [baseStep, hb]

/-- A non-blank line matching no pattern is buffered by the regex pass. -/
lemma baseStep_noMatch (st : ExtractState) (l : String) (hb : strip l ≠ "")
    (hf : sectionFound (strip l) = none) :
    baseStep st l = { st with buf := st.buf ++ [strip l] } := by
  simp [baseStep, hb, hf]

/-- Folding the regex pass over lines none of which matches a pattern
only extends the buffer with the stripped non-blank lines. -/
lemma foldl_baseStep_of_noMatch (lines : List String) (st : ExtractState)
    (h : ∀ l ∈ lines, sectionFound (strip l) = none) :
    lines.foldl baseStep st =
      { st with buf := st.buf ++ ((lines.map strip).filter (· ≠ "")) } := by
  induction lines generalizing st with
  | nil => simp
  | cons l ls ih =>
    have hl := h l (by simp)
    have hls : ∀ x ∈ ls, sectionFound (strip x) = none := fun x hx => h x (by simp [hx])
    by_cases hb : strip l = ""
    · simp only [List.foldl_cons, baseStep_blank st l hb, ih st hls, List.map_cons,
        List.filter_cons, hb]
      simp
    · simp only [List.foldl_cons, baseStep_noMatch st l hb hl, List.map_cons,
        List.filter_cons]
      rw [ih _ hls]
      simp [hb, List.append_assoc]

/-- A blank line is skipped by the markdown extractor's pass. -/
lemma doclingStep_blank (st : ExtractState) (l : String) (hb : strip l = "") :
    doclingStep st l = st := by
  simp [doclingStep, hb]

/-- A non-blank, non-matching line of the markdown pass is buffered
unless it starts with `###`, in which case it is dropped. -/
lemma doclingStep_noMatch (st : ExtractState) (l : String) (hb : strip l ≠ "")
    (hf : doclingSectionFound (strip l) = none) :
    doclingStep st l =
      if !(pyStartsWith (strip l) "###") then { st with buf := st.buf ++ [strip l] }
      else st := by
  simp only [doclingStep, hb, hf]
  split <;> simp_all

/-- Folding the markdown pass over lines none of which matches a pattern
only extends the buffer with the stripped non-blank lines that do not
start with `###`. -/
lemma foldl_doclingStep_of_noMatch (lines : List String) (st : ExtractState)
    (h : ∀ l ∈ lines, doclingSectionFound (strip l) = none) :
    lines.foldl doclingStep st =
      { st with buf := st.buf ++
          ((lines.map strip).filter fun l => decide (l ≠ "") && !(pyStartsWith l "###")) } := by
  induction lines generalizing st with
  | nil => simp
  | cons l ls ih =>
    have hl := h l (by simp)
    have hls : ∀ x ∈ ls, doclingSectionFound (strip x) = none := fun x hx => h x (by simp [hx])
    by_cases hb : strip l = ""
    · simp only [List.foldl_cons, doclingStep_blank st l hb, ih st hls, List.map_cons,
        List.filter_cons, hb]
      simp
    · rw [List.foldl_cons, doclingStep_noMatch st l hb hl]
      by_cases hp : pyStartsWith (strip l) "###" = true
      · simp only [hp, Bool.not_true, Bool.false_eq_true, if_false, ih st hls,
          List.map_cons, List.filter_cons]
        simp [hb, hp]
      · simp only [Bool.not_eq_true] at hp
        simp only [hp, Bool.not_false, if_true, List.map_cons, List.filter_cons]
        rw [ih _ hls]
        simp [hb, hp, List.append_assoc]

/-- No pattern of either table matches the empty line. -/
lemma sectionFound_empty : sectionFound "" = none ∧ doclingSectionFound "" = none := by
  decide

/-! ## C7 -/

/-- C7: on the input `"SUMMARY\nDev.\nEXPERIENCE\nBuilt things.\nSKILLS\nPython"`,
the regex section extractor returns a map whose keys, in insertion
order, are exactly `summary`, `experience`, `skills`, with ordinals
0, 1, 2 respectively. -/
theorem C7_regex_extractor_scenario :
    (extract_sections "SUMMARY\nDev.\nEXPERIENCE\nBuilt things.\nSKILLS\nPython").map
        (fun p => (p.1, p.2.name, p.2.position)) =
      [("summary", "summary", 0), ("experience", "experience", 1), ("skills", "skills", 2)] := by
  decide

/-! ## C10 -/

/-- C10 (amended): a text whose lines are all blank yields an empty map
from both extractors; a text with a non-blank line and no line matching
a header pattern yields exactly one `other` section from the regex
extractor; the markdown extractor does the same only when some
non-blank line survives its `###` filter. -/
theorem C10_amended :
    (∀ text : String, ((splitLines text).map strip).filter (· ≠ "") = [] →
        extract_sections text = [] ∧ docling_extract_sections text = []) ∧
    (∀ text : String, ((splitLines text).map strip).filter (· ≠ "") ≠ [] →
        (∀ l ∈ splitLines text, sectionFound (strip l) = none) →
        (extract_sections text).map Prod.fst = ["other"]) ∧
    (∀ text : String,
        ((splitLines text).map strip).filter
            (fun l => decide (l ≠ "") && !(pyStartsWith l "###")) ≠ [] →
        (∀ l ∈ splitLines text, doclingSectionFound (strip l) = none) →
        (docling_extract_sections text).map Prod.fst = ["other"]) := by
  refine ⟨?_, ?_, ?_⟩
  · intro text hblank
    have hstrip : ∀ l ∈ splitLines text, strip l = "" := by
      intro l hl
      have := List.filter_eq_nil_iff.mp hblank (strip l) (List.mem_map_of_mem strip hl)
      simpa using this
    constructor
    · rw [extract_sections,
        foldl_baseStep_of_noMatch _ _ (fun l hl => by rw [hstrip l hl]; exact sectionFound_empty.1)]
      rw [hblank]
      simp [baseFlush, initExtractState]
    · rw [docling_extract_sections,
        foldl_doclingStep_of_noMatch _ _
          (fun l hl => by rw [hstrip l hl]; exact sectionFound_empty.2)]
      have : ((splitLines text).map strip).filter
          (fun l => decide (l ≠ "") && !(pyStartsWith l "###")) = [] := by
        apply List.filter_eq_nil_iff.mpr
        intro a ha
        have := List.filter_eq_nil_iff.mp hblank a ha
        simp at this
        simp [this]
      rw [this]
      simp [doclingFlush, initExtractState]
  · intro text hne hnm
    rw [extract_sections, foldl_baseStep_of_noMatch _ _ hnm]
    have hbuf : (([] : List String) ++ ((splitLines text).map strip).filter (· ≠ "")).isEmpty = false := by
      simp only [List.nil_append]
      rw [List.isEmpty_eq_false_iff_exists_mem]
      rcases List.exists_mem_of_ne_nil _ hne with ⟨a, ha⟩
      exact ⟨a, ha⟩
    simp only [initExtractState, baseFlush, hbuf, Bool.false_eq_true, if_false]
    simp [dictInsert]
  · intro text hne hnm
    rw [docling_extract_sections, foldl_doclingStep_of_noMatch _ _ hnm]
    have hbuf : (([] : List String) ++ ((splitLines text).map strip).filter
        (fun l => decide (l ≠ "") && !(pyStartsWith l "###"))).isEmpty = false := by
      simp only [List.nil_append]
      rw [List.isEmpty_eq_false_iff_exists_mem]
      rcases List.exists_mem_of_ne_nil _ hne with ⟨a, ha⟩
      exact ⟨a, ha⟩
    simp only [initExtractState, doclingFlush, hbuf, Bool.false_eq_true, if_false]
    simp [dictInsert]

/-- C10 witness: a whitespace-only document, a plain unheadered
document, and a markdown document, through the theorem. -/
theorem C10_amended_witness :
    (extract_sections " \n\t" = [] ∧ docling_extract_sections " \n\t" = []) ∧
    (extract_sections "hello world\nmore text").map Prod.fst = ["other"] ∧
    (docling_extract_sections "hello world\nmore text").map Prod.fst = ["other"] := by
  refine ⟨C10_amended.1 " \n\t" (by decide), ?_, ?_⟩
  · refine C10_amended.2.1 "hello world\nmore text" (by decide) ?_
    intro l hl
    have h : splitLines "hello world\nmore text" = ["hello world", "more text"] := by decide
    rw [h, List.mem_cons, List.mem_singleton] at hl
    rcases hl with rfl | rfl <;> decide
  · refine C10_amended.2.2 "hello world\nmore text" (by decide) ?_
    intro l hl
    have h : splitLines "hello world\nmore text" = ["hello world", "more text"] := by decide
    rw [h, List.mem_cons, List.mem_singleton] at hl
    rcases hl with rfl | rfl <;> decide

/-- C10 counterexample: `"### foo"` is non-empty (its single line is
non-blank) and no line matches a header pattern, yet the markdown-mode
extractor returns an empty map instead of one `other` section. -/
theorem C10_counterexample :
    docling_extract_sections "### foo" = [] ∧
    splitLines "### foo" = ["### foo"] ∧
    strip "### foo" ≠ "" ∧
    doclingSectionFound (strip "### foo") = none := by
  decide

/-! ## C3 -/

/-- C3 (amended): the markdown-mode extractor recognizes section
headers only on lines starting with a heading marker (`#`); a `###`
line matching a section pattern starts a new section like any other
heading; a non-matching line starting with `###` is dropped from the
section content; any other non-matching non-blank line is kept as body
content of the current section. -/
theorem C3_amended :
    (∀ l : String, l.data.head? ≠ some '#' → doclingSectionFound l = none) ∧
    (∀ (st : ExtractState) (l : String) (name : String), strip l ≠ "" →
        doclingSectionFound (strip l) = some name →
        doclingStep st l = { doclingFlush st with current := name, buf := [] }) ∧
    (∀ (st : ExtractState) (l : String), strip l ≠ "" →
        pyStartsWith (strip l) "###" = true →
        doclingSectionFound (strip l) = none →
        doclingStep st l = st) ∧
    (∀ (st : ExtractState) (l : String), strip l ≠ "" →
        pyStartsWith (strip l) "###" = false →
        doclingSectionFound (strip l) = none →
        doclingStep st l = { st with buf := st.buf ++ [strip l] }) := by
  refine ⟨?_, ?_, ?_, ?_⟩
  · intro l hl
    rw [doclingSectionFound]
    rw [List.find?_eq_none.mpr]
    · rfl
    · intro p hp
      simp only [reMatchHashAlts, Bool.not_eq_true, Bool.and_eq_false_iff]
      left
      have ht : l.data.takeWhile (· = '#') = [] := by
        cases hd : l.data with
        | nil => rfl
        | cons c cs =>
          have hc : c ≠ '#' := by
            rw [hd] at hl
            simpa using hl
          simp [List.takeWhile_cons, hc]
      rw [ht]
      rfl
  · intro st l name hb hf
    simp [doclingStep, hb, hf]
  · intro st l hb hp hf
    rw [doclingStep_noMatch st l hb hf, hp]
    rfl
  · intro st l hb hp hf
    rw [doclingStep_noMatch st l hb hf, hp]
    rfl

/-- C3 witness: concrete instances of all four branches of the amended
behaviour. -/
theorem C3_amended_witness :
    doclingSectionFound "Plain body line" = none ∧
    doclingStep initExtractState "## Summary" =
      { doclingFlush initExtractState with current := "summary", buf := [] } ∧
    doclingStep initExtractState "### Details" = initExtractState ∧
    doclingStep initExtractState "body text" =
      { initExtractState with buf := ["body text"] } :=
  ⟨C3_amended.1 "Plain body line" (by decide),
   C3_amended.2.1 initExtractState "## Summary" "summary" (by decide) (by decide),
   C3_amended.2.2.1 initExtractState "### Details" (by decide) (by decide) (by decide),
   C3_amended.2.2.2 initExtractState "body text" (by decide) (by decide) (by decide)⟩

/-- C3 counterexample: on `"# Summary\nDev\n### Skills\nPython"` the
`### Skills` sub-heading starts a new `skills` section, and on
`"# Summary\nDev\n### Details\nPython"` the non-matching `### Details`
line is dropped from the section content — refuting that sub-heading
lines are kept as body content and never open sections. -/
theorem C3_counterexample :
    (docling_extract_sections "# Summary\nDev\n### Skills\nPython").map
        (fun p => (p.1, p.2.content, p.2.position)) =
      [("summary", "Dev", 0), ("skills", "Python", 1)] ∧
    (docling_extract_sections "# Summary\nDev\n### Details\nPython").map
        (fun p => (p.1, p.2.content, p.2.position)) =
      [("summary", "Dev\nPython", 0)] := by
  decide

/-! ## C9 -/

/-- C9: when the external generation service raises on every call,
`generate_content_improvements` never raises (it is a total function of
the failure message) and returns exactly one improvement, whose
confidence is at most 0.5. -/
theorem C9_graceful_degradation (e section_name content : String) (gaps : List String)
    (target_role : Option String) :
    ∃ imp : Improvement,
      generate_content_improvements (.error e) section_name content gaps target_role = [imp] ∧
      imp.confidence ≤ 5/10 :=
  ⟨_, rfl, by norm_num⟩

/-! ## C4 -/

/-- C4 (amended): every stage except Load&Extract only appends to
`processing_errors` (the input list is a prefix of the output list);
`parse_cv_node` instead replaces the list, leaving at most one
diagnostic. -/
theorem C4_amended :
    (∀ (failMsg : Option String) (o : ReOracle) (s : CVState),
        s.processing_errors <+: (analyze_quality_node failMsg o s).processing_errors) ∧
    (∀ (failMsg : Option String) (s : CVState),
        s.processing_errors <+: (match_requirements_node failMsg s).processing_errors) ∧
    (∀ (failMsg : Option String) (invoke : String → String → Except String Unit) (s : CVState),
        s.processing_errors <+: (generate_improvements_node failMsg invoke s).processing_errors) ∧
    (∀ (failMsg : Option String) (s : CVState),
        s.processing_errors <+: (apply_improvements_node failMsg s).processing_errors) ∧
    (∀ s : CVState, s.processing_errors <+: (quality_check_node s).processing_errors) ∧
    (∀ (fileParse fallbackParse : Except String (String × List (String × CVSection)))
        (llmSections : Except String (List (String × CVSection))) (s : CVState),
        (parse_cv_node fileParse fallbackParse llmSections s).processing_errors.length ≤ 1) := by
  refine ⟨?_, ?_, ?_, ?_, ?_, ?_⟩
  · intro failMsg o s
    cases failMsg with
    | none => exact List.prefix_rfl
    | some e => exact ⟨_, rfl⟩
  · intro failMsg s
    cases failMsg with
    | none => exact List.prefix_rfl
    | some e => exact ⟨_, rfl⟩
  · intro failMsg invoke s
    cases failMsg with
    | none => exact List.prefix_rfl
    | some e => exact ⟨_, rfl⟩
  · intro failMsg s
    cases failMsg with
    | none => exact List.prefix_rfl
    | some e => exact ⟨_, rfl⟩
  · intro s
    exact List.prefix_rfl
  · intro fileParse fallbackParse llmSections s
    rw [parse_cv_node.eq_def]
    split
    · cases fileParse with
      | ok v =>
        cases v with
        | mk raw secs => simp
      | error e =>
        dsimp only
        rw [parseErrorResult.eq_def]
        split
        · cases fallbackParse with
          | ok v =>
            cases v with
            | mk raw secs => simp
          | error fe => simp
        · simp
    · simp

/-- C4 counterexample: a successful Load&Extract run wipes previously
recorded diagnostics — the input `processing_errors` is not a prefix of
the output, refuting append-onlyness for every stage. -/
theorem C4_counterexample :
    ¬ (["earlier diagnostic"] <+:
        (parse_cv_node (.ok ("text", [])) (.error "y") (.error "z")
          { initial_state "plain CV text" none none with
              processing_errors := ["earlier diagnostic"] }).processing_errors) := by
  intro h
  have hzero : (parse_cv_node (.ok ("text", [])) (.error "y") (.error "z")
      { initial_state "plain CV text" none none with
          processing_errors := ["earlier diagnostic"] }).processing_errors = [] := rfl
  rw [hzero] at h
  rcases h with ⟨t, ht⟩
  simp at ht

/-! ## C6 -/

/-- C6: when loading is attempted on a path-like input and both the
rich parse and the fallback parse raise, Load&Extract returns the empty
record — `rawText = ""`, `sourceFormat = unknown`, no sections — with
exactly one diagnostic appended to the (entry-stage, empty) error list,
and the stage itself returns normally so the pipeline continues. -/
theorem C6_load_failure (fp_err fb_err : String)
    (llm : Except String (List (String × CVSection))) (s : CVState)
    (hpath : (pyStartsWith s.original_cv "/" || pyStartsWith s.original_cv "./") = true)
    (herr : s.processing_errors = []) :
    (parse_cv_node (.error fp_err) (.error fb_err) llm s).raw_text = "" ∧
    (parse_cv_node (.error fp_err) (.error fb_err) llm s).file_format = "unknown" ∧
    (parse_cv_node (.error fp_err) (.error fb_err) llm s).parsed_sections = [] ∧
    ∃ m, (parse_cv_node (.error fp_err) (.error fb_err) llm s).processing_errors =
           s.processing_errors ++ [m] := by
  rw [parse_cv_node.eq_def]
  simp only [hpath, if_true]
  rw [parseErrorResult.eq_def]
  split
  · exact ⟨rfl, rfl, rfl, ⟨_, by rw [herr]; rfl⟩⟩
  · exact ⟨rfl, rfl, rfl, ⟨_, by rw [herr]; rfl⟩⟩

/-- C6 witness: a concrete absolute-path input whose rich and fallback
parses both raise. -/
theorem C6_witness :
    (parse_cv_node (.error "docling crashed") (.error "basic reader crashed") (.error "llm")
        (initial_state "/tmp/cv.pdf" none none)).raw_text = "" ∧
    (parse_cv_node (.error "docling crashed") (.error "basic reader crashed") (.error "llm")
        (initial_state "/tmp/cv.pdf" none none)).file_format = "unknown" ∧
    (parse_cv_node (.error "docling crashed") (.error "basic reader crashed") (.error "llm")
        (initial_state "/tmp/cv.pdf" none none)).parsed_sections = [] ∧
    ∃ m, (parse_cv_node (.error "docling crashed") (.error "basic reader crashed") (.error "llm")
        (initial_state "/tmp/cv.pdf" none none)).processing_errors =
          (initial_state "/tmp/cv.pdf" none none).processing_errors ++ [m] :=
  C6_load_failure "docling crashed" "basic reader crashed" (.error "llm")
    (initial_state "/tmp/cv.pdf" none none) (by decide) rfl

/-! ## C8 -/

/-- The keyword-density computation when the target industry is in the
fixed table. -/
lemma keyword_density_of_lookup (content t : String) (industry_words : List String)
    (ht : t ≠ "") (hl : dictGet (lower t) industry_keywords = some industry_words) :
    calculate_keyword_density content (some t) =
      min (((industry_words.filter fun keyword => strIn keyword (lower content)).length : ℚ) /
            (industry_words.length : ℚ)) 1 := by
  rw [calculate_keyword_density.eq_def]
  simp only [ht, if_false, hl]

/-- C8: keyword density is the neutral 0.5 exactly when the target
industry is absent (or falsy) or not in the fixed table; otherwise it
is the fraction of that industry's keyword list found as
case-insensitive substrings of the text, capped at 1; the technology
list has 19 entries, and a text containing exactly `python` and
`docker` among them scores 2/19, not 0.5. -/
theorem C8_keyword_density :
    (∀ content : String, calculate_keyword_density content none = 5/10) ∧
    (∀ content t : String, t = "" ∨ dictGet (lower t) industry_keywords = none →
        calculate_keyword_density content (some t) = 5/10) ∧
    (∀ (content t : String) (industry_words : List String), t ≠ "" →
        dictGet (lower t) industry_keywords = some industry_words →
        calculate_keyword_density content (some t) =
          min (((industry_words.filter fun keyword => strIn keyword (lower content)).length : ℚ) /
                (industry_words.length : ℚ)) 1) ∧
    (dictGet "technology" industry_keywords = some technology_keywords ∧
      technology_keywords.length = 19) ∧
    calculate_keyword_density "Skilled in Python and Docker." (some "technology") = 2/19 := by
  refine ⟨fun content => rfl, ?_, keyword_density_of_lookup, ⟨rfl, by decide⟩, ?_⟩
  · intro content t h
    rcases h with h | h
    · subst h; rfl
    · rw [calculate_keyword_density.eq_def]
      by_cases ht : t = ""
      · simp [ht]
      · simp only [ht, if_false, h]
  · rw [keyword_density_of_lookup _ _ technology_keywords (by decide) (by decide)]
    have hn : ((technology_keywords.filter fun keyword =>
        strIn keyword (lower "Skilled in Python and Docker.")).length) = 2 := by decide
    rw [hn]
    have hlen : (technology_keywords.length : ℚ) = 19 := by
      have h19 : technology_keywords.length = 19 := by decide
      rw [h19]; norm_num
    rw [hlen, min_def]
    norm_num

/-- C8 witness: the defaulting branches and the table-lookup branch of
the theorem at concrete inputs. -/
theorem C8_witness :
    calculate_keyword_density "some text" (some "") = 5/10 ∧
    calculate_keyword_density "some text" (some "floristry") = 5/10 ∧
    calculate_keyword_density "Python fan" (some "Technology") =
      min (((technology_keywords.filter fun keyword =>
              strIn keyword (lower "Python fan")).length : ℚ) /
            (technology_keywords.length : ℚ)) 1 :=
  ⟨C8_keyword_density.2.1 "some text" "" (Or.inl rfl),
   C8_keyword_density.2.1 "some text" "floristry" (Or.inr (by decide)),
   C8_keyword_density.2.2.1 "Python fan" "Technology" technology_keywords (by decide) (by decide)⟩

/-! ## C1 -/

/-- The branch threshold `priority == "high" and confidence > 0.7`
shared by `should_apply_improvements` and `apply_improvements_node`. -/
def meetsThreshold (imp : Improvement) : Bool :=
  decide (imp.priority = "high") && decide (imp.confidence > 7/10)

/-- `applyStep` appends the improvement to the applied list exactly
when it meets the threshold, regardless of section/text matching. -/
lemma applyStep_applied (acc : List Improvement × List (String × CVSection)) (imp : Improvement) :
    (applyStep acc imp).1 = if meetsThreshold imp then acc.1 ++ [imp] else acc.1 := by
  rcases acc with ⟨applied, secs⟩
  rw [applyStep, meetsThreshold]
  by_cases h : imp.priority = "high" ∧ imp.confidence > 7/10
  · rw [if_pos h, if_pos (by simp [h.1, h.2])]
  · rw [if_neg h, if_neg (by simpa [Bool.and_eq_true, decide_eq_true_eq] using h)]

/-- The applied list produced by the application loop is exactly the
threshold-filtered suggested list, appended to the accumulator. -/
lemma foldl_applyStep_applied (imps : List Improvement) :
    ∀ acc : List Improvement × List (String × CVSection),
      (imps.foldl applyStep acc).1 = acc.1 ++ imps.filter meetsThreshold := by
  induction imps with
  | nil => intro acc; simp
  | cons imp rest ih =>
    intro acc
    rw [List.foldl_cons, ih, applyStep_applied, List.filter_cons]
    by_cases h : meetsThreshold imp = true
    · rw [if_pos h, h, if_pos rfl]
      simp [List.append_assoc]
    · rw [if_neg h, Bool.not_eq_true] at *
      rw [h]
      simp

/-- C1 (amended): after `apply_improvements_node` the applied list is a
subset of the suggested list and every applied entry has
`priority == "high"` and `confidence > 0.7`; on the non-failing path the
applied list is exactly the threshold-filtered suggested list — the
section-existence and substring conditions only govern whether the text
replacement is performed, not membership in the applied list. -/
theorem C1_amended (failMsg : Option String) (s : CVState) :
    ((apply_improvements_node failMsg s).applied_improvements ⊆ s.suggested_improvements) ∧
    (∀ imp ∈ (apply_improvements_node failMsg s).applied_improvements,
        imp.priority = "high" ∧ imp.confidence > 7/10) ∧
    (apply_improvements_node none s).applied_improvements =
      s.suggested_improvements.filter meetsThreshold := by
  have hnone : (apply_improvements_node none s).applied_improvements =
      s.suggested_improvements.filter meetsThreshold := by
    have h := foldl_applyStep_applied s.suggested_improvements ([], s.parsed_sections)
    simpa using h
  refine ⟨?_, ?_, hnone⟩
  · cases failMsg with
    | some e => intro imp himp; simp [apply_improvements_node] at himp
    | none =>
      rw [hnone]
      exact (List.filter_sublist _).subset
  · cases failMsg with
    | some e => intro imp himp; simp [apply_improvements_node] at himp
    | none =>
      intro imp himp
      rw [hnone] at himp
      have := List.of_mem_filter himp
      simpa [meetsThreshold, Bool.and_eq_true, decide_eq_true_eq] using this

/-- C1 witness: a concrete threshold-passing improvement whose section
is absent still carries the guaranteed priority and confidence. -/
theorem C1_witness :
    (Improvement.mk "missing" "content" "orig" "better" "because" "high" (8/10)).priority = "high" ∧
    (Improvement.mk "missing" "content" "orig" "better" "because" "high" (8/10)).confidence > 7/10 := by
  have hth : meetsThreshold (Improvement.mk "missing" "content" "orig" "better" "because" "high" (8/10)) = true := by
    have hq : ((7:ℚ)/10) < 8/10 := by norm_num
    simp [meetsThreshold, hq]
  refine (C1_amended none
      { initial_state "cv text" none none with
          suggested_improvements :=
            [Improvement.mk "missing" "content" "orig" "better" "because" "high" (8/10)] }).2.1
    _ ?_
  rw [(C1_amended none
      { initial_state "cv text" none none with
          suggested_improvements :=
            [Improvement.mk "missing" "content" "orig" "better" "because" "high" (8/10)] }).2.2]
  rw [List.filter_cons, hth]
  exact List.mem_cons_self _ _

/-- C1 counterexample: an improvement meeting the threshold whose
section does not exist among the current sections is still copied into
the applied list — refuting "copied into 'applied' only if its section
exists and its originalText occurs in that section". -/
theorem C1_counterexample :
    (apply_improvements_node none
        { initial_state "cv text" none none with
            suggested_improvements :=
              [Improvement.mk "missing" "content" "orig" "better" "because" "high" (8/10)] }).applied_improvements =
      [Improvement.mk "missing" "content" "orig" "better" "because" "high" (8/10)] ∧
    dictGet "missing"
      ({ initial_state "cv text" none none with
          suggested_improvements :=
            [Improvement.mk "missing" "content" "orig" "better" "because" "high" (8/10)] } : CVState).parsed_sections = none := by
  constructor
  · have h := foldl_applyStep_applied
      [Improvement.mk "missing" "content" "orig" "better" "because" "high" (8/10)] ([], [])
    have hth : meetsThreshold (Improvement.mk "missing" "content" "orig" "better" "because" "high" (8/10)) = true := by
      have hq : ((7:ℚ)/10) < 8/10 := by norm_num
      simp [meetsThreshold, hq]
    calc (apply_improvements_node none _).applied_improvements
        = List.filter meetsThreshold
            [Improvement.mk "missing" "content" "orig" "better" "because" "high" (8/10)] := by
          simpa using h
      _ = [Improvement.mk "missing" "content" "orig" "better" "because" "high" (8/10)] := by
          rw [List.filter_cons, hth]; rfl
  · rfl

/-! ## C5 -/

/-- A trivial concrete regex oracle (no regex matches anywhere), used
to instantiate stages at concrete inputs. -/
def zeroReOracle : ReOracle :=
  { quantCount := fun _ => 0
    emailFound := fun _ => false
    phoneFound := fun _ => false
    dateCount := fun _ => 0
    bulletCount := fun _ => 0
    wordFound := fun _ _ => false
    durationFound := fun _ => false
    expBulletFound := fun _ => false }

/-- Load&Extract never touches the improvement or output fields. -/
lemma parse_cv_node_preserves (fp fb : Except String (String × List (String × CVSection)))
    (llm : Except String (List (String × CVSection))) (s : CVState) :
    (parse_cv_node fp fb llm s).enhanced_cv = s.enhanced_cv ∧
    (parse_cv_node fp fb llm s).applied_improvements = s.applied_improvements := by
  rw [parse_cv_node.eq_def]
  split
  · cases fp with
    | ok v => cases v with | mk a b => exact ⟨rfl, rfl⟩
    | error e =>
      dsimp only
      rw [parseErrorResult.eq_def]
      split
      · cases fb with
        | ok v => cases v with | mk a b => exact ⟨rfl, rfl⟩
        | error fe => exact ⟨rfl, rfl⟩
      · exact ⟨rfl, rfl⟩
  · exact ⟨rfl, rfl⟩

/-- The analysis stage never touches the improvement or output fields. -/
lemma analyze_quality_node_preserves (failMsg : Option String) (o : ReOracle) (s : CVState) :
    (analyze_quality_node failMsg o s).enhanced_cv = s.enhanced_cv ∧
    (analyze_quality_node failMsg o s).applied_improvements = s.applied_improvements := by
  cases failMsg <;> exact ⟨rfl, rfl⟩

/-- Requirement matching never touches the improvement or output fields. -/
lemma match_requirements_node_preserves (failMsg : Option String) (s : CVState) :
    (match_requirements_node failMsg s).enhanced_cv = s.enhanced_cv ∧
    (match_requirements_node failMsg s).applied_improvements = s.applied_improvements := by
  cases failMsg <;> exact ⟨rfl, rfl⟩

/-- Improvement generation sets only the suggested list. -/
lemma generate_improvements_node_preserves (failMsg : Option String)
    (invoke : String → String → Except String Unit) (s : CVState) :
    (generate_improvements_node failMsg invoke s).enhanced_cv = s.enhanced_cv ∧
    (generate_improvements_node failMsg invoke s).applied_improvements = s.applied_improvements := by
  cases failMsg <;> exact ⟨rfl, rfl⟩

/-- C5: the terminal quality check scores 0.85 exactly when a truthy
final text and at least one applied improvement exist, else 0.70; and
whenever no suggested improvement meets the threshold after the
improvement-generation stage of the pipeline (started from the initial
record), the branch routes directly to QualityCheck and the final
quality score is 0.70. -/
theorem C5_branch_and_quality :
    (∀ s : CVState,
        (quality_check_node s).final_quality_score = some (85/100) ∨
        (quality_check_node s).final_quality_score = some (70/100)) ∧
    (∀ s : CVState,
        (quality_check_node s).final_quality_score = some (85/100) ↔
          (optStrTruthy s.enhanced_cv = true ∧ s.applied_improvements ≠ [])) ∧
    (∀ (fp fb : Except String (String × List (String × CVSection)))
        (llm : Except String (List (String × CVSection)))
        (aFail mFail gFail : Option String) (o : ReOracle)
        (invoke : String → String → Except String Unit)
        (cv : String) (role ind : Option String) (s4 : CVState),
        s4 = generate_improvements_node gFail invoke
               (match_requirements_node mFail
                 (analyze_quality_node aFail o
                   (parse_cv_node fp fb llm (initial_state cv role ind)))) →
        (∀ imp ∈ s4.suggested_improvements,
            ¬(imp.priority = "high" ∧ imp.confidence > 7/10)) →
        should_apply_improvements s4 = "quality_check" ∧
        (quality_check_node s4).final_quality_score = some (70/100)) := by
  have hq : ∀ s : CVState, (quality_check_node s).final_quality_score =
      some (if optStrTruthy s.enhanced_cv ∧ ¬s.applied_improvements.isEmpty
            then (85/100 : ℚ) else 70/100) := fun s => rfl
  have hne : ((85:ℚ)/100) ≠ 70/100 := by norm_num
  refine ⟨?_, ?_, ?_⟩
  · intro s
    rw [hq]
    by_cases h : optStrTruthy s.enhanced_cv ∧ ¬s.applied_improvements.isEmpty
    · left; rw [if_pos h]
    · right; rw [if_neg h]
  · intro s
    rw [hq]
    constructor
    · intro h
      by_cases hc : optStrTruthy s.enhanced_cv ∧ ¬s.applied_improvements.isEmpty
      · refine ⟨hc.1, ?_⟩
        have := hc.2
        simpa [List.isEmpty_iff] using this
      · rw [if_neg hc] at h
        exact absurd (Option.some_injective _ h).symm hne
    · intro h
      rw [if_pos ⟨h.1, by simpa [List.isEmpty_iff] using h.2⟩]
  · intro fp fb llm aFail mFail gFail o invoke cv role ind s4 hs4 hno
    have hempty : s4.suggested_improvements.filter
        (fun imp => decide (imp.priority = "high") && decide (imp.confidence > 7/10)) = [] := by
      apply List.filter_eq_nil_iff.mpr
      intro imp himp
      have h := hno imp himp
      simpa [Bool.and_eq_true, decide_eq_true_eq] using h
    constructor
    · rw [should_apply_improvements, hempty]
      rfl
    · have happ : s4.applied_improvements = [] := by
        rw [hs4,
          (generate_improvements_node_preserves gFail invoke _).2,
          (match_requirements_node_preserves mFail _).2,
          (analyze_quality_node_preserves aFail o _).2,
          (parse_cv_node_preserves fp fb llm _).2]
        rfl
      have henh : s4.enhanced_cv = none := by
        rw [hs4,
          (generate_improvements_node_preserves gFail invoke _).1,
          (match_requirements_node_preserves mFail _).1,
          (analyze_quality_node_preserves aFail o _).1,
          (parse_cv_node_preserves fp fb llm _).1]
        rfl
      rw [hq, if_neg]
      intro hcond
      rw [henh] at hcond
      exact absurd hcond.1 (by simp [optStrTruthy])

/-- C5 witness: a concrete pipeline run (raw-text input, all later
stages failing into their handled branches) suggests no improvement,
routes to the quality check and scores 0.70. -/
theorem C5_witness :
    should_apply_improvements
        (generate_improvements_node (some "llm down") (fun _ _ => .ok ())
          (match_requirements_node (some "err")
            (analyze_quality_node (some "err") zeroReOracle
              (parse_cv_node (.error "x") (.error "y") (.error "z")
                (initial_state "plain text cv" none none))))) = "quality_check" ∧
    (quality_check_node
        (generate_improvements_node (some "llm down") (fun _ _ => .ok ())
          (match_requirements_node (some "err")
            (analyze_quality_node (some "err") zeroReOracle
              (parse_cv_node (.error "x") (.error "y") (.error "z")
                (initial_state "plain text cv" none none)))))).final_quality_score =
      some (70/100) := by
  refine C5_branch_and_quality.2.2 (.error "x") (.error "y") (.error "z")
    (some "err") (some "err") (some "llm down") zeroReOracle (fun _ _ => .ok ())
    "plain text cv" none none _ rfl ?_
  intro imp himp
  have hsugg : (generate_improvements_node (some "llm down") (fun _ _ => .ok ())
      (match_requirements_node (some "err")
        (analyze_quality_node (some "err") zeroReOracle
          (parse_cv_node (.error "x") (.error "y") (.error "z")
            (initial_state "plain text cv" none none))))).suggested_improvements = [] := rfl
  rw [hsugg] at himp
  exact absurd himp (List.not_mem_nil imp)

/-! ## C2 -/

/-- A branch on a decidable condition with nonnegative arms is nonnegative. -/
lemma ite_nonneg {c : Prop} [Decidable c] {a b : ℚ} (ha : 0 ≤ a) (hb : 0 ≤ b) :
    0 ≤ if c then a else b := by
  split <;> assumption

/-- Every value in a dict after an assignment is the assigned value or
was already present. -/
lemma dictInsert_values {α : Type} (k : String) (v : α) (d : List (String × α))
    (p : String × α) (hp : p ∈ dictInsert k v d) : p.2 = v ∨ p ∈ d := by
  induction d with
  | nil =>
    simp only [dictInsert, List.mem_singleton] at hp
    left; rw [hp]
  | cons hd t ih =>
    rcases hd with ⟨k', v'⟩
    simp only [dictInsert] at hp
    split at hp
    · rcases List.mem_cons.mp hp with h | h
      · left; rw [h]
      · right; exact List.mem_cons_of_mem _ h
    · rcases List.mem_cons.mp hp with h | h
      · right; rw [h]; exact List.mem_cons_self _ _
      · rcases ih h with h' | h'
        · left; exact h'
        · right; exact List.mem_cons_of_mem _ h'

/-- The per-section content score lies in `[0, 1]`. -/
lemma sectionContentScore_bounds (o : ReOracle) (name : String) (sec : CVSection) :
    0 ≤ sectionContentScore o name sec ∧ sectionContentScore o name sec ≤ 1 := by
  simp only [sectionContentScore]
  refine ⟨le_min ?_ zero_le_one, min_le_right _ _⟩
  have h1 : (0:ℚ) ≤ if name = "summary"
      then min (((pySplitWs (lower sec.content).data).length : ℚ) / 50) 1 * (3/10)
      else if name = "experience"
      then min (((pySplitWs (lower sec.content).data).length : ℚ) / 200) 1 * (3/10)
      else min (((pySplitWs (lower sec.content).data).length : ℚ) / 30) 1 * (3/10) := by
    apply ite_nonneg (by positivity) (ite_nonneg (by positivity) (by positivity))
  have h2 : (0:ℚ) ≤ min (((action_verbs.filter fun verb =>
      strIn verb (lower sec.content)).length : ℚ) / 5) 1 * (3/10) := by positivity
  have h3 : (0:ℚ) ≤ min ((o.quantCount (lower sec.content) : ℚ) / 3) 1 * (4/10) := by positivity
  linarith

/-- All per-section content scores lie in `[0, 1]`. -/
lemma analyze_content_quality_bounds (o : ReOracle) (sections : List (String × CVSection)) :
    ∀ p ∈ analyze_content_quality o sections, 0 ≤ p.2 ∧ p.2 ≤ 1 := by
  rw [analyze_content_quality]
  have main : ∀ (secs : List (String × CVSection)) (init : List (String × ℚ)),
      (∀ p ∈ init, 0 ≤ p.2 ∧ p.2 ≤ 1) →
      ∀ p ∈ secs.foldl (contentStep o) init, 0 ≤ p.2 ∧ p.2 ≤ 1 := by
    intro secs
    induction secs with
    | nil => intro init h; simpa using h
    | cons e rest ih =>
      intro init h
      rw [List.foldl_cons]
      apply ih
      intro p hp
      rw [contentStep] at hp
      rcases dictInsert_values _ _ _ _ hp with h' | h'
      · rw [h']; exact sectionContentScore_bounds o e.1 e.2
      · exact h p h'
  exact main sections [] (by simp)

/-- The ATS-compatibility score lies in `[0, 1]`. -/
lemma check_ats_compatibility_bounds (o : ReOracle) (raw : String) :
    0 ≤ check_ats_compatibility o raw ∧ check_ats_compatibility o raw ≤ 1 := by
  simp only [check_ats_compatibility]
  refine ⟨le_min ?_ zero_le_one, min_le_right _ _⟩
  have h1 : (0:ℚ) ≤ if o.emailFound raw = true then (2:ℚ)/10 else 0 :=
    ite_nonneg (by norm_num) le_rfl
  have h2 : (0:ℚ) ≤ if o.phoneFound raw = true then (2:ℚ)/10 else 0 :=
    ite_nonneg (by norm_num) le_rfl
  have h3 : (0:ℚ) ≤ min ((o.dateCount raw : ℚ) / 5) 1 * (2/10) := by positivity
  have h4 : (0:ℚ) ≤ min ((o.bulletCount raw : ℚ) / 10) 1 * (2/10) := by positivity
  have h5 : (0:ℚ) ≤ min (((ats_section_headers.filter fun h =>
      o.wordFound h raw).length : ℚ) / 5) 1 * (2/10) := by positivity
  linarith

/-- The keyword-density score lies in `[0, 1]`. -/
lemma calculate_keyword_density_bounds (content : String) (t : Option String) :
    0 ≤ calculate_keyword_density content t ∧ calculate_keyword_density content t ≤ 1 := by
  rw [calculate_keyword_density.eq_def]
  rcases t with _ | t
  · norm_num
  · dsimp only
    split
    · norm_num
    · rcases h : dictGet (lower t) industry_keywords with _ | ws
      · norm_num
      · refine ⟨le_min (by positivity) zero_le_one, min_le_right _ _⟩

/-- The formatting score lies in `[0, 1]`. -/
lemma analyze_formatting_bounds (raw : String) :
    0 ≤ analyze_formatting raw ∧ analyze_formatting raw ≤ 1 := by
  simp only [analyze_formatting]
  refine ⟨le_min ?_ zero_le_one, min_le_right _ _⟩
  have h1 : (0:ℚ) ≤ if (((splitLines raw).map strip).filter (· ≠ "")).length > 10
      then (3:ℚ)/10 else 0 := ite_nonneg (by norm_num) le_rfl
  have h2 : (0:ℚ) ≤ if ((splitLines raw).length : ℚ) >
      ((((splitLines raw).map strip).filter (· ≠ "")).length : ℚ) * (12/10)
      then (2:ℚ)/10 else 0 := ite_nonneg (by norm_num) le_rfl
  have h3 : (0:ℚ) ≤ if 300 ≤ (pySplitWs raw.data).length ∧ (pySplitWs raw.data).length ≤ 800
      then (3:ℚ)/10
      else if (pySplitWs raw.data).length < 300 then (1:ℚ)/10 else 0 :=
    ite_nonneg (by norm_num) (ite_nonneg (by norm_num) le_rfl)
  have h4 : (0:ℚ) ≤ min (((professional_indicators.filter fun ind =>
      strIn ind (lower raw)).length : ℚ) / 3) 1 * (2/10) := by positivity
  linarith

/-- The average of the per-section scores, taken as 0 on an empty map,
lies in `[0, 1]`. -/
lemma avg_bounds (l : List (String × ℚ)) (h : ∀ p ∈ l, 0 ≤ p.2 ∧ p.2 ≤ 1) :
    0 ≤ (if l.isEmpty then (0:ℚ) else (l.map Prod.snd).sum / (l.length : ℚ)) ∧
    (if l.isEmpty then (0:ℚ) else (l.map Prod.snd).sum / (l.length : ℚ)) ≤ 1 := by
  split
  · norm_num
  · rename_i hne
    have hlen : 0 < l.length := by
      cases l with
      | nil => simp at hne
      | cons a t => simp
    have hsum0 : 0 ≤ (l.map Prod.snd).sum := by
      apply List.sum_nonneg
      intro x hx
      rcases List.mem_map.mp hx with ⟨p, hp, rfl⟩
      exact (h p hp).1
    have hsum1 : (l.map Prod.snd).sum ≤ (l.length : ℚ) := by
      have hb := List.sum_le_card_nsmul (l.map Prod.snd) 1 (by
        intro x hx
        rcases List.mem_map.mp hx with ⟨p, hp, rfl⟩
        exact (h p hp).2)
      simpa [nsmul_eq_mul] using hb
    have hlenq : (0:ℚ) < (l.length : ℚ) := by exact_mod_cast hlen
    constructor
    · positivity
    · rw [div_le_one hlenq]
      exact hsum1

/-- The weighted combination of four `[0, 1]` scores with the fixed
weights 0.4/0.25/0.2/0.15 lies in `[0, 1]`. -/
lemma convex_bounds {a b c d : ℚ} (ha : 0 ≤ a ∧ a ≤ 1) (hb : 0 ≤ b ∧ b ≤ 1)
    (hc : 0 ≤ c ∧ c ≤ 1) (hd : 0 ≤ d ∧ d ≤ 1) :
    0 ≤ a * (4/10) + b * (25/100) + c * (2/10) + d * (15/100) ∧
    a * (4/10) + b * (25/100) + c * (2/10) + d * (15/100) ≤ 1 := by
  constructor <;> [linarith [ha.1, hb.1, hc.1, hd.1]; linarith [ha.2, hb.2, hc.2, hd.2]]

/-- The half-to-even rounding is the floor or the floor plus one. -/
lemma roundHalfEven_ge_floor (x : ℚ) : ⌊x⌋ ≤ roundHalfEven x := by
  rw [roundHalfEven]
  split
  · exact le_refl _
  split
  · omega
  split
  · exact le_refl _
  · omega

/-- Half-to-even rounding of a nonnegative rational is nonnegative. -/
lemma roundHalfEven_nonneg {x : ℚ} (hx : 0 ≤ x) : 0 ≤ roundHalfEven x :=
  le_trans (Int.floor_nonneg.mpr hx) (roundHalfEven_ge_floor x)

/-- Half-to-even rounding never exceeds an integer upper bound. -/
lemma roundHalfEven_le {x : ℚ} {n : ℤ} (hx : x ≤ (n : ℚ)) : roundHalfEven x ≤ n := by
  have hfl : ⌊x⌋ ≤ n := by
    have h := Int.floor_le_floor hx
    simpa using h
  rw [roundHalfEven]
  split
  · exact hfl
  split
  · rename_i hc1 hc2
    have hlt : (⌊x⌋ : ℚ) < (n : ℚ) := by linarith
    have hn : ⌊x⌋ < n := by exact_mod_cast hlt
    omega
  split
  · exact hfl
  · rename_i hc1 hc2 hc3
    have h12 : (1:ℚ)/2 ≤ x - ⌊x⌋ := le_of_not_lt hc1
    have hlt : (⌊x⌋ : ℚ) < (n : ℚ) := by linarith
    have hn : ⌊x⌋ < n := by exact_mod_cast hlt
    omega

/-- `round(·, 3)` preserves the unit interval. -/
lemma round3_bounds {q : ℚ} (h0 : 0 ≤ q) (h1 : q ≤ 1) : 0 ≤ round3 q ∧ round3 q ≤ 1 := by
  rw [round3]
  constructor
  · have hn : 0 ≤ roundHalfEven (q * 1000) := roundHalfEven_nonneg (by positivity)
    have : (0:ℚ) ≤ (roundHalfEven (q * 1000) : ℚ) := by exact_mod_cast hn
    positivity
  · have hle : roundHalfEven (q * 1000) ≤ (1000 : ℤ) := roundHalfEven_le (by push_cast; linarith)
    rw [div_le_one (by norm_num)]
    exact_mod_cast hle

/-- Half-to-even rounding fixes integers. -/
lemma roundHalfEven_intCast (n : ℤ) : roundHalfEven (n : ℚ) = n := by
  rw [roundHalfEven, Int.floor_intCast]
  norm_num

/-- `round(·, 3)` fixes every 3-decimal value. -/
lemma round3_of_thousandth (n : ℤ) : round3 ((n : ℚ) / 1000) = (n : ℚ) / 1000 := by
  rw [round3]
  have h : (n : ℚ) / 1000 * 1000 = (n : ℚ) := by field_simp
  rw [h, roundHalfEven_intCast]

/-- `round(·, 3)` is idempotent. -/
lemma round3_idem (q : ℚ) : round3 (round3 q) = round3 q :=
  round3_of_thousandth _

/-- C2 (amended): every field of the report produced by
`generate_analysis_score` lies in `[0, 1]`, the overall score equals
the 3-decimal rounding of
`0.4·avg(per-section) + 0.25·ats + 0.2·keyword + 0.15·formatting`
(with the average taken as 0 on an empty sections map), and the five
scalar fields are rounded to 3 decimal places — while the per-section
scores are stored unrounded. -/
theorem C2_amended (o : ReOracle) (sections : List (String × CVSection)) (raw_text : String)
    (target_industry : Option String) (r : AnalysisScore)
    (hr : r = generate_analysis_score o sections raw_text target_industry) :
    (∀ p ∈ r.section_scores, 0 ≤ p.2 ∧ p.2 ≤ 1) ∧
    (0 ≤ r.overall_score ∧ r.overall_score ≤ 1) ∧
    (0 ≤ r.ats_compatibility ∧ r.ats_compatibility ≤ 1) ∧
    (0 ≤ r.keyword_density ∧ r.keyword_density ≤ 1) ∧
    (0 ≤ r.formatting_score ∧ r.formatting_score ≤ 1) ∧
    (0 ≤ r.content_quality ∧ r.content_quality ≤ 1) ∧
    r.overall_score = round3
      ((if r.section_scores.isEmpty then 0
        else (r.section_scores.map Prod.snd).sum / (r.section_scores.length : ℚ)) * (4/10) +
       check_ats_compatibility o raw_text * (25/100) +
       calculate_keyword_density raw_text target_industry * (2/10) +
       analyze_formatting raw_text * (15/100)) ∧
    round3 r.overall_score = r.overall_score ∧
    round3 r.ats_compatibility = r.ats_compatibility ∧
    round3 r.keyword_density = r.keyword_density ∧
    round3 r.formatting_score = r.formatting_score ∧
    round3 r.content_quality = r.content_quality := by
  subst hr
  have hsec := analyze_content_quality_bounds o sections
  have hats := check_ats_compatibility_bounds o raw_text
  have hkw := calculate_keyword_density_bounds raw_text target_industry
  have hfmt := analyze_formatting_bounds raw_text
  have havg := avg_bounds (analyze_content_quality o sections) hsec
  have hover := convex_bounds havg hats hkw hfmt
  exact ⟨hsec, round3_bounds hover.1 hover.2, round3_bounds hats.1 hats.2,
    round3_bounds hkw.1 hkw.2, round3_bounds hfmt.1 hfmt.2, round3_bounds havg.1 havg.2,
    rfl, round3_idem _, round3_idem _, round3_idem _, round3_idem _, round3_idem _⟩

/-- The single-section example score `min(1/200, 1)·0.3 = 0.0015`. -/
lemma sectionContentScore_exp :
    sectionContentScore zeroReOracle "experience" (CVSection.mk "experience" "worked" 0 (8/10)) =
      3/2000 := by
  have h1 : (pySplitWs (lower "worked").data).length = 1 := by decide
  have h2 : (action_verbs.filter fun verb => strIn verb (lower "worked")).length = 0 := by decide
  simp only [sectionContentScore, h1, h2, zeroReOracle]
  rw [if_neg (show ¬("experience" : String) = "summary" by decide)]
  norm_num [min_def]

/-- The stored per-section scores of the example report. -/
lemma exp_section_scores :
    (generate_analysis_score zeroReOracle
        [("experience", CVSection.mk "experience" "worked" 0 (8/10))] "" none).section_scores =
      [("experience", 3/2000)] := by
  show analyze_content_quality zeroReOracle
      [("experience", CVSection.mk "experience" "worked" 0 (8/10))] = _
  rw [analyze_content_quality, List.foldl_cons, List.foldl_nil, contentStep]
  dsimp only
  rw [sectionContentScore_exp]
  rfl

/-- `0.0015` is not a 3-decimal value: rounding moves it to `0.002`. -/
lemma round3_not_fixed_3_2000 : round3 ((3:ℚ)/2000) ≠ 3/2000 := by
  have h : ((3:ℚ)/2000) * 1000 = 3/2 := by norm_num
  have hf : ⌊(3:ℚ)/2⌋ = 1 := by
    rw [Int.floor_eq_iff]
    norm_num
  rw [round3, h, roundHalfEven, hf]
  norm_num

/-- C2 counterexample: a one-word experience section is stored in
`section_scores` with value 0.0015, which is not rounded to 3 decimal
places — refuting "all stored values rounded to 3 decimal places". -/
theorem C2_counterexample :
    (generate_analysis_score zeroReOracle
        [("experience", CVSection.mk "experience" "worked" 0 (8/10))] "" none).section_scores =
      [("experience", 3/2000)] ∧
    round3 ((3:ℚ)/2000) ≠ 3/2000 :=
  ⟨exp_section_scores, round3_not_fixed_3_2000⟩

/-- C2 witness: the bounds through the theorem at a concrete report and
stored per-section score. -/
theorem C2_witness :
    ("experience", (3:ℚ)/2000) ∈ (generate_analysis_score zeroReOracle
        [("experience", CVSection.mk "experience" "worked" 0 (8/10))] "" none).section_scores ∧
    (0 ≤ (3:ℚ)/2000 ∧ (3:ℚ)/2000 ≤ 1) := by
  have hm : ("experience", (3:ℚ)/2000) ∈ (generate_analysis_score zeroReOracle
      [("experience", CVSection.mk "experience" "worked" 0 (8/10))] "" none).section_scores := by
    rw [exp_section_scores]
    exact List.mem_singleton.mpr rfl
  exact ⟨hm, (C2_amended zeroReOracle
      [("experience", CVSection.mk "experience" "worked" 0 (8/10))] "" none _ rfl).1 _ hm⟩

end CVAgent
